import Mathlib

/-!
Shallow embedding of the witness-driven chunk streaming loader of the feldspar
repository, file src/crates/feldspar-map/src/plugin/loader.rs, together with
theorems settling the claims about it.

External collaborators (the clipmap index, the storage database, the bevy task
pool) are kept abstract: the near-phase search and the storage read are
arbitrary function parameters, the side-effecting index operations are recorded
in an event trace, and the executor is abstracted by a per-task readiness
countdown (the number of polls that still report not ready).
-/

namespace Feldspar

/-- Loader configuration, from the struct LoaderConfig in loader.rs lines 17-23. -/
structure LoaderConfig where
  load_batch_size : Nat
  max_pending_load_tasks : Nat
  deriving DecidableEq

/-- Default configuration, from loader.rs lines 25-32. -/
def LoaderConfig.default : LoaderConfig :=
  { load_batch_size := 256, max_pending_load_tasks := 16 }

/-- Result of one background load batch, from the struct LoadedBatch in loader.rs
lines 34-36: an ordered list of (node key, optional archived chunk) pairs. K stands
for the opaque node key type and P for the opaque chunk payload type. -/
structure LoadedBatch (K P : Type) where
  reads : List (K × Option P)
  deriving DecidableEq

/-- A background task handle held in the pending-load queue. The executor is
external to the source under src/, so readiness is abstracted by a countdown:
remainingPolls is the number of polls that still report not ready before the task
completes with result; a poll of the task decrements the countdown. -/
structure MTask (K P : Type) where
  remainingPolls : Nat
  result : LoadedBatch K P
  deriving DecidableEq

/-- Witness component: loader.rs reads only its previous_transform field
(line 83); the current transform is supplied separately by the query, modelled
here as a plain position value of an opaque type S. -/
structure Witness (S : Type) where
  previous_transform : Option S
  deriving DecidableEq

/-- Observable collaborator calls made by loader_system during one tick, recorded
as a trace: broadPhase for clipmap.broad_phase_load_search (line 89), nearPhase for
clipmap.near_phase_load_search (line 96), spawn for io_pool.spawn plus enqueue
(lines 101-112) carrying the eagerly collected batch keys, and fulfill for
clipmap.fulfill_pending_load (lines 70-74). A is the opaque nearest-ancestor
pointer type paired with each key by the near-phase search. -/
inductive Ev (S K A P : Type) where
  | broadPhase (oldPos newPos : S)
  | nearPhase (pos : S)
  | spawn (pos : S) (keys : List (K × A))
  | fulfill (key : K) (payload : Option P)
  deriving DecidableEq

/-- The completion-draining loop of loader_system, lines 64-79: repeatedly pop the
front task and poll it once. A ready task has its batch applied (each pair passed
to clipmap.fulfill_pending_load in order, see fulfillEvents). A task that is not
ready is pushed to the BACK of the queue (load_tasks.push, line 77) and the loop
continues; the loop in the source exits only when the queue is empty. Returns the
applied batches in application order together with the total number of poll_once
calls performed. -/
def drainRun {K P : Type} : List (MTask K P) → List (LoadedBatch K P) × Nat
  | [] => ([], 0)
  | t :: rest =>
    if h : t.remainingPolls = 0 then
      let r := drainRun rest
      (t.result :: r.1, r.2 + 1)
    else
      let r := drainRun (rest ++ [⟨t.remainingPolls - 1, t.result⟩])
      (r.1, r.2 + 1)
termination_by q => (q.map (fun t => t.remainingPolls)).sum + q.length
decreasing_by
  · simp only [List.map_cons, List.sum_cons, List.length_cons]
    omega
  · simp only [List.map_append, List.sum_append, List.length_append,
      List.map_cons, List.sum_cons, List.length_cons, List.map_nil,
      List.sum_nil, List.length_nil]
    omega

/-- Body of the spawned async block, lines 101-111, specialised to executions in
which every storage read succeeds: each batch key is paired with the read result
of db.read_working_version for that key, in the key order fixed at submission. -/
def buildBatch {K A P : Type} (read : K → Option P) (keys : List (K × A)) :
    LoadedBatch K P :=
  ⟨keys.map (fun c => (c.1, read c.1))⟩

/-- Body of the spawned async block, lines 101-111, with the fallible storage read
made explicit: read_working_version returns a Result, modelled as Except E, and the
source calls unwrap on it (line 107), which panics the background task in the
error case; the panic is modelled by propagating Except.error, aborting the rest
of the batch. -/
def buildBatchE {K A P E : Type} (read : K → Except E (Option P)) :
    List (K × A) → Except E (LoadedBatch K P)
  | [] => Except.ok ⟨[]⟩
  | c :: rest =>
    match read c.1 with
    | Except.error e => Except.error e
    | Except.ok p =>
      match buildBatchE read rest with
      | Except.error e => Except.error e
      | Except.ok b => Except.ok ⟨(c.1, p) :: b.reads⟩

/-- One iteration of the per-witness loop of loader_system, lines 82-114,
threading the pending-load queue and the call trace. near abstracts
clipmap.near_phase_load_search (the lazily produced, distance-ordered candidate
sequence), read abstracts the storage reads performed later inside the spawned
task, and rpNew is the scheduler-chosen readiness countdown of the newly spawned
task. A witness with no previous transform is skipped (line 83). Otherwise the
broad-phase marking call happens first (line 89); then, if the queue already holds
at least max_pending_load_tasks tasks, the iteration stops (lines 91-93);
otherwise at most load_batch_size candidates are collected eagerly into a fixed
list (lines 96-97) and exactly one task is spawned and pushed to the back of the
queue (lines 99-112). -/
def witnessStep {S K A P : Type} (cfg : LoaderConfig) (near : S → List (K × A))
    (read : K → Option P) (rpNew : Nat) (w : Witness S) (tfm : S)
    (st : List (MTask K P) × List (Ev S K A P)) :
    List (MTask K P) × List (Ev S K A P) :=
  match w.previous_transform with
  | none => st
  | some prevPos =>
    let q := st.1
    let tr := st.2 ++ [Ev.broadPhase prevPos tfm]
    if cfg.max_pending_load_tasks ≤ q.length then
      (q, tr)
    else
      let keys := (near tfm).take cfg.load_batch_size
      (q ++ [⟨rpNew, buildBatch read keys⟩],
        tr ++ [Ev.nearPhase tfm, Ev.spawn tfm keys])

/-- The witness loop of loader_system, lines 82-114, over the query results in
iteration order. -/
def witnessLoop {S K A P : Type} (cfg : LoaderConfig) (near : S → List (K × A))
    (read : K → Option P) (rpNew : Nat) :
    List (Witness S × S) → List (MTask K P) × List (Ev S K A P) →
      List (MTask K P) × List (Ev S K A P)
  | [], st => st
  | (w, tfm) :: ws, st =>
    witnessLoop cfg near read rpNew ws (witnessStep cfg near read rpNew w tfm st)

/-- Trace of clipmap.fulfill_pending_load calls produced when applying a list of
batches in order, loader.rs lines 68-75: within one batch the pairs are applied in
the order of loaded_batch.reads, including pairs whose payload is absent. -/
def fulfillEvents {S K A P : Type} (bs : List (LoadedBatch K P)) :
    List (Ev S K A P) :=
  (bs.map (fun b => b.reads.map (fun kp => Ev.fulfill kp.1 kp.2))).flatten

/-- One run of loader_system, lines 56-115: drain the pending queue (the drain
loop of the source exits only once the queue is empty), then run the witness loop
starting from the emptied queue, accumulating the trace of collaborator calls. -/
def tick {S K A P : Type} (cfg : LoaderConfig) (near : S → List (K × A))
    (read : K → Option P) (rpNew : Nat) (ws : List (Witness S × S))
    (q0 : List (MTask K P)) : List (MTask K P) × List (Ev S K A P) :=
  witnessLoop cfg near read rpNew ws ([], fulfillEvents (drainRun q0).1)

/-- Predicate on traces: every spawn event is preceded by a broad-phase event
whose new position is the position of the spawn. -/
def SpawnsCovered {S K A P : Type} (tr : List (Ev S K A P)) : Prop :=
  ∀ tr1 tr2 pos keys, tr = tr1 ++ Ev.spawn pos keys :: tr2 →
    ∃ p, Ev.broadPhase p pos ∈ tr1

/-- Helper: unfolding equation of the drain loop on the empty queue. -/
theorem drainRun_nil {K P : Type} : drainRun ([] : List (MTask K P)) = ([], 0) := by
  rw [drainRun]

/-- Helper: unfolding equation of the drain loop when the front task polls ready:
its batch is applied first and the loop continues on the rest of the queue. -/
theorem drainRun_cons_ready {K P : Type} (t : MTask K P) (rest : List (MTask K P))
    (h : t.remainingPolls = 0) :
    drainRun (t :: rest) = (t.result :: (drainRun rest).1, (drainRun rest).2 + 1) := by
  rw [drainRun]
  simp [h]

/-- Helper: unfolding equation of the drain loop when the front task polls not
ready: the task is pushed to the back of the queue and the loop continues. -/
theorem drainRun_cons_notReady {K P : Type} (t : MTask K P) (rest : List (MTask K P))
    (h : t.remainingPolls ≠ 0) :
    drainRun (t :: rest) =
      ((drainRun (rest ++ [⟨t.remainingPolls - 1, t.result⟩])).1,
       (drainRun (rest ++ [⟨t.remainingPolls - 1, t.result⟩])).2 + 1) := by
  rw [drainRun]
  simp [h]

/-- Helper: the drain loop applies each submitted batch exactly once: the list of
applied batches is a permutation of the queued task results. -/
theorem drainRun_fst_perm {K P : Type} (q : List (MTask K P)) :
    ((drainRun q).1).Perm (q.map (fun t => t.result)) := by
  induction q using drainRun.induct with
  | case1 => simp [drainRun_nil]
  | case2 t rest h ih =>
    rw [drainRun_cons_ready t rest h]
    exact ih.cons t.result
  | case3 t rest h ih =>
    rw [drainRun_cons_notReady t rest h]
    refine ih.trans ?_
    simp only [List.map_append, List.map_cons, List.map_nil]
    exact List.perm_append_singleton _ _

/-- C1 fails on the code: the drain loop of loader_system pushes a not-ready task
to the BACK of the queue (load_tasks.push at line 77 is a push_back) and keeps
draining instead of restoring the front and stopping, so a later batch that is
ready is committed before an earlier one. Concretely, with batch B1 submitted
first but not ready at its first poll and batch B2 submitted second and ready at
its first poll, the applied order is B2 then B1, not the submission order B1 then
B2 claimed by the spec (and by the comment at line 64 of the source). -/
theorem C1_commit_order_violation :
    drainRun [(⟨1, ⟨[((1 : Nat), some (10 : Nat))]⟩⟩ : MTask Nat Nat),
        ⟨0, ⟨[(2, some 20)]⟩⟩] =
      ([⟨[(2, some 20)]⟩, ⟨[(1, some 10)]⟩], 3) ∧
    ([⟨[(2, some 20)]⟩, ⟨[(1, some 10)]⟩] : List (LoadedBatch Nat Nat)) ≠
      [⟨[(1, some 10)]⟩, ⟨[(2, some 20)]⟩] := by
  constructor
  · simp [drainRun_cons_ready, drainRun_cons_notReady, drainRun_nil]
  · decide

/-- C2 fails on the code: the drain loop does not stop at the first not-ready
entry and does not poll each outstanding batch at most once per tick; it spins,
re-polling not-ready tasks pushed to the back, until the queue is empty. A single
outstanding batch that reports not ready for its first n polls is polled n + 1
times within one run of the loop, an unbounded amount of polling for one task,
while the claim allows exactly one poll for it. -/
theorem C2_drain_not_bounded_by_first_not_ready {K P : Type} (b : LoadedBatch K P) :
    ∀ n : Nat, (drainRun [⟨n, b⟩]).2 = n + 1 := by
  intro n
  induction n with
  | zero => simp [drainRun_cons_ready, drainRun_nil]
  | succ n ih =>
    rw [drainRun_cons_notReady _ _ (Nat.succ_ne_zero n)]
    simpa using ih

/-- C3 fails on the code: loader.rs line 107 calls unwrap on the Result returned
by the storage read, so a read failure panics the background unit instead of
surfacing the address as empty or propagating a recoverable batch-level failure
(the task result type LoadedBatch has no failure channel at all). At a concrete
batch containing one address whose read fails, the background unit computation
does not produce a batch result. -/
theorem C3_read_failure_panics_counterexample :
    (buildBatchE (fun _ => (Except.error (0 : Nat) : Except Nat (Option Nat)))
        [((1 : Nat), (0 : Nat))]).isOk = false := rfl

/-- C3 amended: when the storage read fails for any candidate address of the
batch, the background unit panics at the unwrap (modelled as the batch
computation propagating the error); the failure is neither surfaced as an empty
payload for that address nor reported as a recoverable batch-level result. -/
theorem C3_read_failure_panics {K A P E : Type} (read : K → Except E (Option P))
    (keys : List (K × A)) (c : K × A) (e : E)
    (hc : c ∈ keys) (he : read c.1 = Except.error e) :
    ∃ e2, buildBatchE read keys = Except.error e2 := by
  induction keys with
  | nil => cases hc
  | cons d rest ih =>
    cases hr : read d.1 with
    | error e0 => exact ⟨e0, by simp [buildBatchE, hr]⟩
    | ok pl =>
      rcases List.mem_cons.mp hc with hcd | hmem
      · rw [hcd] at he
        rw [hr] at he
        cases he
      · rcases ih hmem with ⟨e2, h2⟩
        exact ⟨e2, by simp [buildBatchE, hr, h2]⟩

/-- Witness for the amended C3: a concrete one-address batch whose read fails
makes the background unit panic. -/
theorem C3_read_failure_panics_witness :
    ∃ e2, buildBatchE (fun _ => (Except.error (0 : Nat) : Except Nat (Option Nat)))
        [((1 : Nat), (0 : Nat))] = Except.error e2 :=
  C3_read_failure_panics (fun _ => (Except.error (0 : Nat) : Except Nat (Option Nat)))
    [((1 : Nat), (0 : Nat))] ((1 : Nat), (0 : Nat)) 0 (by simp) rfl

/-- Helper: a witness without a previous transform leaves the state untouched
(loader.rs line 83). -/
theorem witnessStep_none {S K A P : Type} (cfg : LoaderConfig)
    (near : S → List (K × A)) (read : K → Option P) (rpNew : Nat)
    (w : Witness S) (tfm : S) (st : List (MTask K P) × List (Ev S K A P))
    (h : w.previous_transform = none) :
    witnessStep cfg near read rpNew w tfm st = st := by
  simp [witnessStep, h]

/-- Helper: with a previous transform and the queue at or over the cap, the step
records only the broad-phase call and submits nothing (loader.rs lines 88-93). -/
theorem witnessStep_capped {S K A P : Type} (cfg : LoaderConfig)
    (near : S → List (K × A)) (read : K → Option P) (rpNew : Nat)
    (w : Witness S) (tfm : S) (q : List (MTask K P))
    (tr : List (Ev S K A P)) (p : S)
    (h : w.previous_transform = some p)
    (hq : cfg.max_pending_load_tasks ≤ q.length) :
    witnessStep cfg near read rpNew w tfm (q, tr) =
      (q, tr ++ [Ev.broadPhase p tfm]) := by
  simp [witnessStep, h, hq]

/-- Helper: with a previous transform and the queue under the cap, the step records
the broad-phase, near-phase and spawn calls and enqueues exactly one task whose
batch is the eagerly taken prefix of the near-phase result (loader.rs
lines 88-112). -/
theorem witnessStep_uncapped {S K A P : Type} (cfg : LoaderConfig)
    (near : S → List (K × A)) (read : K → Option P) (rpNew : Nat)
    (w : Witness S) (tfm : S) (q : List (MTask K P))
    (tr : List (Ev S K A P)) (p : S)
    (h : w.previous_transform = some p)
    (hq : q.length < cfg.max_pending_load_tasks) :
    witnessStep cfg near read rpNew w tfm (q, tr) =
      (q ++ [⟨rpNew, buildBatch read ((near tfm).take cfg.load_batch_size)⟩],
       tr ++ [Ev.broadPhase p tfm, Ev.nearPhase tfm,
         Ev.spawn tfm ((near tfm).take cfg.load_batch_size)]) := by
  simp [witnessStep, h, Nat.not_le.mpr hq]

/-- Helper: once the queue is at or over the cap, the whole witness loop adds no
task, because the queue never shrinks during the loop. -/
theorem witnessLoop_capped_queue {S K A P : Type} (cfg : LoaderConfig)
    (near : S → List (K × A)) (read : K → Option P) (rpNew : Nat) :
    ∀ (ws : List (Witness S × S)) (q : List (MTask K P))
      (tr : List (Ev S K A P)),
      cfg.max_pending_load_tasks ≤ q.length →
      (witnessLoop cfg near read rpNew ws (q, tr)).1 = q := by
  intro ws
  induction ws with
  | nil => intro q tr _; rfl
  | cons wt ws ih =>
    intro q tr hq
    rcases wt with ⟨w, tfm⟩
    rcases hw : w.previous_transform with _ | p
    · rw [witnessLoop, witnessStep_none cfg near read rpNew w tfm _ hw]
      exact ih q _ hq
    · rw [witnessLoop, witnessStep_capped cfg near read rpNew w tfm q tr p hw hq]
      exact ih q _ hq

/-- Helper: the witness loop only ever appends to the trace. -/
theorem witnessLoop_trace_ext {S K A P : Type} (cfg : LoaderConfig)
    (near : S → List (K × A)) (read : K → Option P) (rpNew : Nat) :
    ∀ (ws : List (Witness S × S)) (q : List (MTask K P))
      (tr : List (Ev S K A P)),
      ∃ ext, (witnessLoop cfg near read rpNew ws (q, tr)).2 = tr ++ ext := by
  intro ws
  induction ws with
  | nil => intro q tr; exact ⟨[], by simp [witnessLoop]⟩
  | cons wt ws ih =>
    intro q tr
    rcases wt with ⟨w, tfm⟩
    rcases hw : w.previous_transform with _ | p
    · rw [witnessLoop, witnessStep_none cfg near read rpNew w tfm _ hw]
      exact ih q tr
    · by_cases hq : cfg.max_pending_load_tasks ≤ q.length
      · rw [witnessLoop, witnessStep_capped cfg near read rpNew w tfm q tr p hw hq]
        rcases ih q (tr ++ [Ev.broadPhase p tfm]) with ⟨ext, hext⟩
        exact ⟨[Ev.broadPhase p tfm] ++ ext, by rw [hext, List.append_assoc]⟩
      · rw [witnessLoop,
          witnessStep_uncapped cfg near read rpNew w tfm q tr p hw (Nat.not_le.mp hq)]
        rcases ih (q ++ [⟨rpNew, buildBatch read ((near tfm).take cfg.load_batch_size)⟩])
          (tr ++ [Ev.broadPhase p tfm, Ev.nearPhase tfm,
            Ev.spawn tfm ((near tfm).take cfg.load_batch_size)]) with ⟨ext, hext⟩
        exact ⟨[Ev.broadPhase p tfm, Ev.nearPhase tfm,
          Ev.spawn tfm ((near tfm).take cfg.load_batch_size)] ++ ext,
          by rw [hext, List.append_assoc]⟩

/-- C8: every batch in the queue is applied exactly once by the drain loop (the
applied batches are a permutation of the submitted ones); the fulfill trace of a
tick starts with the fulfill call for every (address, optional payload) pair of
the applied batches, batch by batch in application order and pair by pair in the
order stored in the batch, including pairs with an absent payload; and the pair
order stored by the background unit is exactly the candidate order fixed at
submission. -/
theorem C8_fulfill_each_pair_once {S K A P : Type} (cfg : LoaderConfig)
    (near : S → List (K × A)) (read : K → Option P) (rpNew : Nat)
    (ws : List (Witness S × S)) (q : List (MTask K P)) (keys : List (K × A)) :
    ((drainRun q).1).Perm (q.map (fun t => t.result)) ∧
    (buildBatch (A := A) read keys).reads = keys.map (fun c => (c.1, read c.1)) ∧
    ∃ ext, (tick cfg near read rpNew ws q).2 =
      fulfillEvents (S := S) (A := A) ((drainRun q).1) ++ ext :=
  ⟨drainRun_fst_perm q, rfl,
   witnessLoop_trace_ext cfg near read rpNew ws [] (fulfillEvents (drainRun q).1)⟩

/-- C5: for every witness processed while the pending-load queue holds at least
max_pending_load_tasks tasks, no new batch is submitted for that witness (the
queue is unchanged), yet the broad-phase marking call is still recorded before the
cap check; consequently a whole witness loop entered with a full queue submits
zero new batches. -/
theorem C5_backpressure_cap {S K A P : Type} (cfg : LoaderConfig)
    (near : S → List (K × A)) (read : K → Option P) (rpNew : Nat) :
    (∀ (w : Witness S) (tfm : S) (q : List (MTask K P))
        (tr : List (Ev S K A P)) (p : S),
        w.previous_transform = some p →
        cfg.max_pending_load_tasks ≤ q.length →
        witnessStep cfg near read rpNew w tfm (q, tr) =
          (q, tr ++ [Ev.broadPhase p tfm])) ∧
    (∀ (ws : List (Witness S × S)) (q : List (MTask K P))
        (tr : List (Ev S K A P)),
        cfg.max_pending_load_tasks ≤ q.length →
        (witnessLoop cfg near read rpNew ws (q, tr)).1 = q) :=
  ⟨fun w tfm q tr p h hq => witnessStep_capped cfg near read rpNew w tfm q tr p h hq,
   fun ws q tr hq => witnessLoop_capped_queue cfg near read rpNew ws q tr hq⟩

/-- Witness for C5: a concrete witness processed with one task outstanding under
cap 1 yields only the broad-phase event and an unchanged queue. -/
theorem C5_backpressure_cap_witness :
    witnessStep (S := Nat) (K := Nat) (A := Nat) (P := Nat) ⟨3, 1⟩
        (fun _ => [(5, 0)]) (fun _ => some 7) 0 ⟨some 0⟩ 1 ([⟨0, ⟨[]⟩⟩], []) =
      ([⟨0, ⟨[]⟩⟩], [Ev.broadPhase 0 1]) ∧
    (witnessLoop (S := Nat) (K := Nat) (A := Nat) (P := Nat) ⟨3, 1⟩
        (fun _ => [(5, 0)]) (fun _ => some 7) 0 [(⟨some 0⟩, 1)]
        ([⟨0, ⟨[]⟩⟩], [])).1 = [⟨0, ⟨[]⟩⟩] :=
  ⟨(C5_backpressure_cap ⟨3, 1⟩ (fun _ => [(5, 0)]) (fun _ => some 7) 0).1
      ⟨some 0⟩ 1 [⟨0, ⟨[]⟩⟩] [] 0 rfl (by decide),
   (C5_backpressure_cap ⟨3, 1⟩ (fun _ => [(5, 0)]) (fun _ => some 7) 0).2
      [(⟨some 0⟩, 1)] [⟨0, ⟨[]⟩⟩] [] (by decide)⟩

/-- C6: an uncapped witness submits a batch whose key list is exactly the prefix
of the near-phase result taken eagerly at submission time, so its length is at
most load_batch_size and at most what the near-phase search yielded; the enqueued
task result is fixed from that list before the asynchronous boundary. -/
theorem C6_batch_size_bound {S K A P : Type} (cfg : LoaderConfig)
    (near : S → List (K × A)) (read : K → Option P) (rpNew : Nat)
    (w : Witness S) (tfm : S) (q : List (MTask K P))
    (tr : List (Ev S K A P)) (p : S)
    (h : w.previous_transform = some p)
    (hq : q.length < cfg.max_pending_load_tasks) :
    witnessStep cfg near read rpNew w tfm (q, tr) =
      (q ++ [⟨rpNew, buildBatch read ((near tfm).take cfg.load_batch_size)⟩],
       tr ++ [Ev.broadPhase p tfm, Ev.nearPhase tfm,
         Ev.spawn tfm ((near tfm).take cfg.load_batch_size)]) ∧
    ((near tfm).take cfg.load_batch_size).length ≤ cfg.load_batch_size ∧
    ((near tfm).take cfg.load_batch_size).length ≤ (near tfm).length := by
  refine ⟨witnessStep_uncapped cfg near read rpNew w tfm q tr p h hq, ?_, ?_⟩
  · rw [List.length_take]
    exact min_le_left _ _
  · rw [List.length_take]
    exact min_le_right _ _

/-- Witness for C6: with load_batch_size 2 and three candidates available, the
submitted batch is the two closest candidates. -/
theorem C6_batch_size_bound_witness :
    witnessStep (S := Nat) (K := Nat) (A := Nat) (P := Nat) ⟨2, 4⟩
        (fun _ => [(5, 0), (6, 0), (7, 0)]) (fun _ => some 7) 0 ⟨some 0⟩ 1
        ([], []) =
      ([] ++ [⟨0, buildBatch (fun _ => some 7)
          (((fun (_ : Nat) => [(5, 0), (6, 0), (7, 0)]) 1).take 2)⟩],
       [] ++ [Ev.broadPhase 0 1, Ev.nearPhase 1,
         Ev.spawn 1 (((fun (_ : Nat) => [(5, 0), (6, 0), (7, 0)]) 1).take 2)]) ∧
    ((((fun (_ : Nat) => [(5, 0), (6, 0), (7, 0)]) 1).take 2).length ≤ 2 ∧
     (((fun (_ : Nat) => [(5, 0), (6, 0), (7, 0)]) 1).take 2).length ≤
       (((fun (_ : Nat) => [((5 : Nat), (0 : Nat)), (6, 0), (7, 0)]) 1)).length) :=
  C6_batch_size_bound ⟨2, 4⟩ (fun _ => [(5, 0), (6, 0), (7, 0)])
    (fun _ => some 7) 0 ⟨some 0⟩ 1 [] [] 0 rfl (by decide)

/-- C7: a witness whose previous position is absent triggers no broad-phase call,
no near-phase call and no batch submission: its iteration leaves the queue and the
trace exactly as they were. -/
theorem C7_absent_prev_skip {S K A P : Type} (cfg : LoaderConfig)
    (near : S → List (K × A)) (read : K → Option P) (rpNew : Nat)
    (w : Witness S) (tfm : S) (st : List (MTask K P) × List (Ev S K A P))
    (h : w.previous_transform = none) :
    witnessStep cfg near read rpNew w tfm st = st :=
  witnessStep_none cfg near read rpNew w tfm st h

/-- Witness for C7: a concrete first-tick witness changes nothing. -/
theorem C7_absent_prev_skip_witness :
    witnessStep (S := Nat) (K := Nat) (A := Nat) (P := Nat) ⟨2, 4⟩
        (fun _ => [(5, 0)]) (fun _ => some 7) 0 ⟨none⟩ 1 ([], []) = ([], []) :=
  C7_absent_prev_skip ⟨2, 4⟩ (fun _ => [(5, 0)]) (fun _ => some 7) 0 ⟨none⟩ 1
    ([], []) rfl

/-- C10: every witness with a previous position that passes the cap check enqueues
exactly one new task, even when the taken candidate list is empty, so an empty
batch still occupies one slot counted against max_pending_load_tasks. -/
theorem C10_one_task_per_uncapped_witness {S K A P : Type} (cfg : LoaderConfig)
    (near : S → List (K × A)) (read : K → Option P) (rpNew : Nat)
    (w : Witness S) (tfm : S) (q : List (MTask K P))
    (tr : List (Ev S K A P)) (p : S)
    (h : w.previous_transform = some p)
    (hq : q.length < cfg.max_pending_load_tasks) :
    (witnessStep cfg near read rpNew w tfm (q, tr)).1 =
      q ++ [⟨rpNew, buildBatch read ((near tfm).take cfg.load_batch_size)⟩] ∧
    ((witnessStep cfg near read rpNew w tfm (q, tr)).1).length = q.length + 1 := by
  rw [witnessStep_uncapped cfg near read rpNew w tfm q tr p h hq]
  simp

/-- Witness for C10: a witness whose near-phase search yields no candidates still
enqueues one (empty) task, growing the queue from one task to two. -/
theorem C10_one_task_per_uncapped_witness_witness :
    (witnessStep (S := Nat) (K := Nat) (A := Nat) (P := Nat) ⟨3, 2⟩
        (fun _ => []) (fun _ => some 7) 0 ⟨some 0⟩ 1 ([⟨0, ⟨[]⟩⟩], [])).1 =
      [⟨0, ⟨[]⟩⟩] ++ [⟨0, buildBatch (fun _ => some 7)
        (((fun (_ : Nat) => ([] : List (Nat × Nat))) 1).take 3)⟩] ∧
    ((witnessStep (S := Nat) (K := Nat) (A := Nat) (P := Nat) ⟨3, 2⟩
        (fun _ => []) (fun _ => some 7) 0 ⟨some 0⟩ 1 ([⟨0, ⟨[]⟩⟩], [])).1).length =
      [(⟨0, ⟨[]⟩⟩ : MTask Nat Nat)].length + 1 :=
  C10_one_task_per_uncapped_witness ⟨3, 2⟩ (fun _ => []) (fun _ => some 7) 0
    ⟨some 0⟩ 1 [⟨0, ⟨[]⟩⟩] [] 0 rfl (by decide)

/-- Helper: appending a broad-phase event to a trace preserves the property that
every spawn event is preceded by a broad-phase event at its position. -/
theorem spawnsCovered_append_broad {S K A P : Type}
    (tr : List (Ev S K A P)) (a b : S)
    (h : SpawnsCovered tr) : SpawnsCovered (tr ++ [Ev.broadPhase a b]) := by
  intro tr1 tr2 pos keys heq
  rcases List.append_eq_append_iff.mp heq.symm with ⟨m, hm1, hm2⟩ | ⟨m, hm1, hm2⟩
  · match m, hm2 with
    | [], hm2 => simp at hm2
    | x :: xs, hm2 =>
      rw [List.cons_append] at hm2
      injection hm2 with hx hxs
      rw [← hx] at hm1
      exact h tr1 xs pos keys hm1
  · exfalso
    match m, hm2 with
    | [], hm2 => simp at hm2
    | [x], hm2 => simp at hm2
    | x :: y :: xs, hm2 => simp at hm2

/-- Helper: appending the three events recorded by an uncapped witness iteration
(broad-phase, near-phase, spawn at the same position) preserves the property that
every spawn event is preceded by a broad-phase event at its position. -/
theorem spawnsCovered_append_seg {S K A P : Type}
    (tr : List (Ev S K A P)) (a b : S) (ks : List (K × A))
    (h : SpawnsCovered tr) :
    SpawnsCovered (tr ++ [Ev.broadPhase a b, Ev.nearPhase b, Ev.spawn b ks]) := by
  intro tr1 tr2 pos keys heq
  rcases List.append_eq_append_iff.mp heq.symm with ⟨m, hm1, hm2⟩ | ⟨m, hm1, hm2⟩
  · match m, hm2 with
    | [], hm2 => simp at hm2
    | x :: xs, hm2 =>
      rw [List.cons_append] at hm2
      injection hm2 with hx hxs
      rw [← hx] at hm1
      exact h tr1 xs pos keys hm1
  · match m, hm2 with
    | [], hm2 => simp at hm2
    | [x], hm2 => simp at hm2
    | [x, y], hm2 =>
      simp only [List.cons_append, List.nil_append, List.cons.injEq] at hm2
      obtain ⟨hx, hy, hsp, htr2⟩ := hm2
      have hpos : b = pos := by
        cases hsp
        rfl
      refine ⟨a, ?_⟩
      rw [hm1, ← hx, ← hpos]
      simp
    | x :: y :: z :: xs, hm2 => simp at hm2

/-- Helper: the fulfill trace of applied batches contains no spawn events. -/
theorem fulfillEvents_no_spawn {S K A P : Type} (bs : List (LoadedBatch K P))
    (pos : S) (keys : List (K × A)) :
    Ev.spawn (P := P) pos keys ∉ fulfillEvents (S := S) (A := A) bs := by
  simp [fulfillEvents]

/-- Helper: the fulfill trace of applied batches trivially satisfies the
spawn-coverage property, having no spawn events at all. -/
theorem spawnsCovered_fulfillEvents {S K A P : Type} (bs : List (LoadedBatch K P)) :
    SpawnsCovered (fulfillEvents (S := S) (A := A) bs) := by
  intro tr1 tr2 pos keys heq
  exfalso
  apply fulfillEvents_no_spawn bs pos keys
  rw [heq]
  exact List.mem_append_right tr1 (List.mem_cons_self _ _)

/-- Helper: the witness loop preserves the spawn-coverage property of the trace:
each iteration appends its broad-phase event before any spawn event it appends. -/
theorem witnessLoop_spawnsCovered {S K A P : Type} (cfg : LoaderConfig)
    (near : S → List (K × A)) (read : K → Option P) (rpNew : Nat) :
    ∀ (ws : List (Witness S × S)) (q : List (MTask K P))
      (tr : List (Ev S K A P)),
      SpawnsCovered tr →
      SpawnsCovered ((witnessLoop cfg near read rpNew ws (q, tr)).2) := by
  intro ws
  induction ws with
  | nil => intro q tr h; exact h
  | cons wt ws ih =>
    intro q tr h
    rcases wt with ⟨w, tfm⟩
    rcases hw : w.previous_transform with _ | p
    · rw [witnessLoop, witnessStep_none cfg near read rpNew w tfm _ hw]
      exact ih q tr h
    · by_cases hq : cfg.max_pending_load_tasks ≤ q.length
      · rw [witnessLoop, witnessStep_capped cfg near read rpNew w tfm q tr p hw hq]
        exact ih q _ (spawnsCovered_append_broad tr p tfm h)
      · rw [witnessLoop,
          witnessStep_uncapped cfg near read rpNew w tfm q tr p hw (Nat.not_le.mp hq)]
        exact ih _ _ (spawnsCovered_append_seg tr p tfm _ h)

/-- C9: in every tick, every spawn event in the trace is preceded by a broad-phase
event whose new position is the spawn position: broad-phase marking for a witness
always happens before that witness submits its batch, so no address is submitted
for loading without the pending marking call having been made first. -/
theorem C9_broad_marks_before_spawn {S K A P : Type} (cfg : LoaderConfig)
    (near : S → List (K × A)) (read : K → Option P) (rpNew : Nat)
    (ws : List (Witness S × S)) (q0 : List (MTask K P)) :
    SpawnsCovered ((tick cfg near read rpNew ws q0).2) :=
  witnessLoop_spawnsCovered cfg near read rpNew ws []
    (fulfillEvents (drainRun q0).1) (spawnsCovered_fulfillEvents _)

/-- Witness for C9: in a concrete tick whose trace decomposes around its spawn
event, a broad-phase event at the spawn position occurs earlier in the trace. -/
theorem C9_broad_marks_before_spawn_witness :
    ∃ p, Ev.broadPhase (K := Nat) (A := Nat) (P := Nat) p (1 : Nat) ∈
      ([Ev.broadPhase 0 1, Ev.nearPhase 1] : List (Ev Nat Nat Nat Nat)) :=
  C9_broad_marks_before_spawn ⟨3, 2⟩ (fun _ => ([] : List (Nat × Nat)))
    (fun _ => some 7) 0 [(⟨some 0⟩, 1)] []
    [Ev.broadPhase 0 1, Ev.nearPhase 1] [] 1 []
    (by simp [tick, witnessLoop, witnessStep, fulfillEvents, drainRun_nil, buildBatch])

/-- Helper: under a zero configuration value, the witness loop keeps two
invariants: every spawn event carries an empty key list, and every queued task
carries an empty batch result. -/
theorem witnessLoop_zero_inert {S K A P : Type} (cfg : LoaderConfig)
    (near : S → List (K × A)) (read : K → Option P) (rpNew : Nat)
    (h : cfg.load_batch_size = 0 ∨ cfg.max_pending_load_tasks = 0) :
    ∀ (ws : List (Witness S × S)) (q : List (MTask K P))
      (tr : List (Ev S K A P)),
      (∀ pos keys, Ev.spawn pos keys ∈ tr → keys = ([] : List (K × A))) →
      (∀ t ∈ q, t.result.reads = []) →
      (∀ pos keys, Ev.spawn pos keys ∈ (witnessLoop cfg near read rpNew ws (q, tr)).2 →
          keys = ([] : List (K × A))) ∧
      (∀ t ∈ (witnessLoop cfg near read rpNew ws (q, tr)).1, t.result.reads = []) := by
  intro ws
  induction ws with
  | nil => intro q tr h1 h2; exact ⟨h1, h2⟩
  | cons wt ws ih =>
    intro q tr h1 h2
    rcases wt with ⟨w, tfm⟩
    rcases hw : w.previous_transform with _ | p
    · rw [witnessLoop, witnessStep_none cfg near read rpNew w tfm _ hw]
      exact ih q tr h1 h2
    · by_cases hq : cfg.max_pending_load_tasks ≤ q.length
      · rw [witnessLoop, witnessStep_capped cfg near read rpNew w tfm q tr p hw hq]
        refine ih q _ ?_ h2
        intro pos keys hmem
        rcases List.mem_append.mp hmem with hmem | hmem
        · exact h1 pos keys hmem
        · simp at hmem
      · have hbs : cfg.load_batch_size = 0 := by
          rcases h with hb | hb
          · exact hb
          · rw [hb] at hq
            exact absurd (Nat.zero_le q.length) hq
        rw [witnessLoop,
          witnessStep_uncapped cfg near read rpNew w tfm q tr p hw (Nat.not_le.mp hq)]
        refine ih _ _ ?_ ?_
        · intro pos keys hmem
          rcases List.mem_append.mp hmem with hmem | hmem
          · exact h1 pos keys hmem
          · simp [hbs] at hmem
            exact hmem.2
        · intro t hmem
          rcases List.mem_append.mp hmem with hmem | hmem
          · exact h2 t hmem
          · simp at hmem
            rw [hmem]
            simp [hbs, buildBatch]

/-- Predicate used to state inertness: a trace event is harmless when it is not a
spawn event or is a spawn event carrying an empty candidate list. -/
def spawnKeysEmpty {S K A P : Type} : Ev S K A P → Bool
  | Ev.spawn _ keys => keys.isEmpty
  | _ => true

/-- C4: a configuration with load_batch_size zero or max_pending_load_tasks zero
is inert: the tick function is total (it neither panics nor loops in the model),
every spawn event of the tick carries an empty candidate list, and every task left
in the queue carries an empty batch, so witness movement produces no chunk loading
work. -/
theorem C4_zero_config_inert {S K A P : Type} (cfg : LoaderConfig)
    (near : S → List (K × A)) (read : K → Option P) (rpNew : Nat)
    (ws : List (Witness S × S)) (q0 : List (MTask K P))
    (h : cfg.load_batch_size = 0 ∨ cfg.max_pending_load_tasks = 0) :
    ((tick cfg near read rpNew ws q0).2.all spawnKeysEmpty) = true ∧
    ((tick cfg near read rpNew ws q0).1.all
        (fun t => t.result.reads.isEmpty)) = true := by
  have base1 : ∀ (pos : S) (keys : List (K × A)),
      Ev.spawn (P := P) pos keys ∈
        fulfillEvents (S := S) (A := A) ((drainRun q0).1) →
      keys = [] :=
    fun pos keys hmem => absurd hmem (fulfillEvents_no_spawn _ pos keys)
  have base2 : ∀ t ∈ ([] : List (MTask K P)), t.result.reads = [] := by simp
  have main := witnessLoop_zero_inert cfg near read rpNew h ws []
    (fulfillEvents (drainRun q0).1) base1 base2
  simp only [tick]
  constructor
  · rw [List.all_eq_true]
    intro ev hev
    cases ev with
    | spawn pos keys =>
      have hk := main.1 pos keys hev
      simp [spawnKeysEmpty, hk]
    | broadPhase a b => rfl
    | nearPhase a => rfl
    | fulfill k pl => rfl
  · rw [List.all_eq_true]
    intro t ht
    have hr := main.2 t ht
    simp [hr]

/-- Witness for C4: a concrete tick under load_batch_size zero, with a moved
witness and a candidate available, spawns only empty batches and leaves only
empty batch results queued. -/
theorem C4_zero_config_inert_witness :
    ((tick (S := Nat) (K := Nat) (A := Nat) (P := Nat) ⟨0, 16⟩
        (fun _ => [(1, 1)]) (fun _ => some 0) 0 [(⟨some 0⟩, 1)] []).2.all
        spawnKeysEmpty) = true ∧
    ((tick (S := Nat) (K := Nat) (A := Nat) (P := Nat) ⟨0, 16⟩
        (fun _ => [(1, 1)]) (fun _ => some 0) 0 [(⟨some 0⟩, 1)] []).1.all
        (fun t => t.result.reads.isEmpty)) = true :=
  C4_zero_config_inert ⟨0, 16⟩ (fun _ => [(1, 1)]) (fun _ => some 0) 0
    [(⟨some 0⟩, 1)] [] (Or.inl rfl)

end Feldspar
